import Mathlib

/-!
Verification of the entitlement / session subsystem of the normaai backend.

The Rust source (src/backend/src) is shallowly embedded: Postgres rows become
Lean structures, tables become lists of rows, and each SQL statement becomes a
pure function transforming the list exactly as the WHERE/SET clauses dictate.
Timestamps are integers (seconds); `NOW()` is an explicit `now` parameter.
Nullable columns are `Option`. SQL three-valued comparisons against NULL
(which filter the row out) are modelled by matching on the `Option`.
-/

namespace NormaAI

/-- A row of the `users` table, restricted to the columns read or written by
the entitlement logic (`database.rs`: `can_send_message`,
`decrement_trial_message`, `auto_reset_individual_monthly_limits`,
`soft_delete_user`, `restore_user`). -/
structure User where
  id : Nat
  account_type : String
  account_status : String
  trial_messages_remaining : Option Int
  premium_expires_at : Option Int
  subscription_started_at : Option Int
  deleted_at : Option Int
  updated_at : Option Int
  deriving Repr, DecidableEq

/-- Thirty days in seconds (`30 * 24 * 3600`), the unit used by the monthly
reset sweep, the soft-delete grace period and the session expiry. -/
def thirtyDays : Int := 30 * 24 * 3600

/-- `can_send_message` (database.rs:815-849), as a decision on the resolved
account state (`get_user` result). The Rust:
if the user is absent, deny; if `premium_expires_at` is set and `< NOW()`,
allow iff `trial_messages_remaining.unwrap_or(0) > 0`; else if `account_type`
matches `"professional" | "premium"`, allow; else allow iff
`trial_messages_remaining.unwrap_or(0) > 0`. -/
def canSendMessage (now : Int) : Option User → Bool
  | none => false
  | some u =>
    let expired :=
      match u.premium_expires_at with
      | some e => decide (e < now)
      | none => false
    if expired then
      decide (0 < u.trial_messages_remaining.getD 0)
    else if u.account_type == "professional" || u.account_type == "premium" then
      true
    else
      decide (0 < u.trial_messages_remaining.getD 0)

/-- The claim's version of the rule, written from the spec's words (for the
refinement comparison only): allow when the subscription window is strictly in
the future AND `account_type` is professional, team or premium; otherwise
allow iff `trial_messages_remaining > 0` (null as 0); absent account denies. -/
def claimCanSendMessage (now : Int) : Option User → Bool
  | none => false
  | some u =>
    let unexpiredWindow :=
      match u.premium_expires_at with
      | some e => decide (now < e)
      | none => false
    if unexpiredWindow &&
        (u.account_type == "professional" || u.account_type == "team" ||
         u.account_type == "premium") then
      true
    else
      decide (0 < u.trial_messages_remaining.getD 0)

/-- The row guard of the UPDATE in `decrement_trial_message`
(database.rs:790-812): `account_type NOT IN ('professional','team','premium')
AND trial_messages_remaining > 0` (a NULL counter fails the comparison). -/
def decrementGuard (u : User) : Bool :=
  !(u.account_type == "professional" || u.account_type == "team" ||
    u.account_type == "premium") &&
  (match u.trial_messages_remaining with
   | some n => decide (0 < n)
   | none => false)

/-- `decrement_trial_message` (database.rs:790-812). `none` for the user id
reproduces the `ok_or("User not authenticated")` early return. The UPDATE
decrements the counter and touches `updated_at` on every row matching
`id = $1` and the guard; zero affected rows yields the distinct no-quota
error. The returned list is the table after the call (unchanged on error). -/
def decrementTrialMessage (now : Int) (userId : Option Nat) (users : List User) :
    Except String Unit × List User :=
  match userId with
  | none => (Except.error "User not authenticated", users)
  | some uid =>
    let rowsAffected := users.countP (fun u => u.id == uid && decrementGuard u)
    let users' := users.map (fun u =>
      if u.id == uid && decrementGuard u then
        { u with trial_messages_remaining := some (u.trial_messages_remaining.getD 0 - 1),
                 updated_at := some now }
      else u)
    if rowsAffected = 0 then
      (Except.error "No messages remaining or user has unlimited plan", users)
    else
      (Except.ok (), users')

/-- The row guard of `auto_reset_individual_monthly_limits`
(database.rs:853-881): `account_type = 'individual' AND
subscription_started_at IS NOT NULL AND (trial_messages_remaining IS NULL OR
(trial_messages_remaining = 0 AND EXTRACT(EPOCH FROM (NOW() -
COALESCE(updated_at, subscription_started_at))) >= 30 * 24 * 3600))`. -/
def resetGuard (now : Int) (u : User) : Bool :=
  u.account_type == "individual" &&
  u.subscription_started_at.isSome &&
  (u.trial_messages_remaining == none ||
   (u.trial_messages_remaining == some 0 &&
    match u.updated_at, u.subscription_started_at with
    | some b, _ => decide (thirtyDays ≤ now - b)
    | none, some b => decide (thirtyDays ≤ now - b)
    | none, none => false))

/-- `auto_reset_individual_monthly_limits` (database.rs:853-881): set
`trial_messages_remaining = 20` and touch `updated_at` on every row matching
`resetGuard`; returns the new table and the affected-row count. -/
def autoResetIndividualMonthlyLimits (now : Int) (users : List User) :
    List User × Nat :=
  (users.map (fun u =>
      if resetGuard now u then
        { u with trial_messages_remaining := some 20, updated_at := some now }
      else u),
   users.countP (fun u => resetGuard now u))

/-- The claim's version of the reset guard, written from the spec's words (for
the refinement comparison only): condition (b) measures the elapsed time since
the LATER of `updated_at` and `subscription_started_at`. -/
def claimResetGuard (now : Int) (u : User) : Bool :=
  u.account_type == "individual" &&
  u.subscription_started_at.isSome &&
  (u.trial_messages_remaining == none ||
   (u.trial_messages_remaining == some 0 &&
    match u.updated_at, u.subscription_started_at with
    | some b, some s => decide (thirtyDays ≤ now - max b s)
    | none, some s => decide (thirtyDays ≤ now - s)
    | _, none => false))

/-- `soft_delete_user` (database.rs:1027-1048): unconditionally sets
`account_status = 'deleted'` and `deleted_at = updated_at = now` on the row
with the given id. -/
def softDeleteUser (now : Int) (userId : Nat) (users : List User) : List User :=
  users.map (fun u =>
    if u.id == userId then
      { u with account_status := "deleted", deleted_at := some now,
               updated_at := some now }
    else u)

/-- The row guard of `restore_user` (database.rs:1051-1073):
`account_status = 'deleted' AND deleted_at IS NOT NULL AND
deleted_at > NOW() - INTERVAL '30 days'`. -/
def restoreGuard (now : Int) (u : User) : Bool :=
  u.account_status == "deleted" &&
  (match u.deleted_at with
   | some d => decide (now - thirtyDays < d)
   | none => false)

/-- `restore_user` (database.rs:1051-1073): set `account_status = 'active'`,
clear `deleted_at`, touch `updated_at` on the row matching the id and
`restoreGuard`; `fetch_one` errors (RowNotFound) when no row matches, leaving
the table unchanged. -/
def restoreUser (now : Int) (userId : Nat) (users : List User) :
    Except String Unit × List User :=
  let rowsAffected := users.countP (fun u => u.id == userId && restoreGuard now u)
  let users' := users.map (fun u =>
    if u.id == userId && restoreGuard now u then
      { u with account_status := "active", deleted_at := none,
               updated_at := some now }
    else u)
  if rowsAffected = 0 then
    (Except.error "RowNotFound", users)
  else
    (Except.ok (), users')

/-- `DeviceInfo` (sessions.rs:10-17): client-reported device metadata; its
`session_id` field is the stable per-install identifier that survives token
refreshes. -/
structure DeviceInfo where
  session_id : Option String
  name : Option String
  os : Option String
  browser : Option String
  app_version : Option String
  deriving Repr, DecidableEq

/-- A row of the `user_sessions` table (database.rs:296-306): primary-key id,
owning user, SHA-256 token hash (UNIQUE), optional device metadata, optional
ip, creation / last-seen / expiry timestamps and the revoked flag. The
operations below receive the already-hashed token, mirroring the Rust which
computes `hash_token(token)` first (the hash itself is not modelled). -/
structure Session where
  id : Nat
  user_id : Nat
  session_token_hash : String
  device_info : Option DeviceInfo
  ip_address : Option String
  created_at : Int
  last_seen_at : Int
  expires_at : Int
  revoked : Bool
  deriving Repr, DecidableEq

/-- Seven days in seconds, the retention of revoked sessions before cleanup. -/
def sevenDays : Int := 7 * 24 * 3600

/-- Ninety days in seconds, the staleness horizon for unrevoked idle
sessions. -/
def ninetyDays : Int := 90 * 24 * 3600

/-- The stored `device_info->>'session_id'` of a session row. -/
def Session.devSid (s : Session) : Option String :=
  s.device_info.bind (fun d => d.session_id)

/-- A session counts toward the concurrency cap when `revoked = false AND
expires_at > NOW()` (the filter used by every active-session query in
sessions.rs). -/
def Session.isActive (now : Int) (s : Session) : Bool :=
  !s.revoked && decide (now < s.expires_at)

/-- The deletion predicate shared by `cleanup_sessions` (sessions.rs:356-377)
and `cleanup_user_sessions` (sessions.rs:379-396): `expires_at < NOW() OR
(revoked AND last_seen_at < NOW() - 7 days) OR (NOT revoked AND
last_seen_at < NOW() - 90 days)`. -/
def Session.isStale (now : Int) (s : Session) : Bool :=
  decide (s.expires_at < now) ||
  (s.revoked && decide (s.last_seen_at < now - sevenDays)) ||
  (!s.revoked && decide (s.last_seen_at < now - ninetyDays))

/-- The non-revoked, non-expired sessions of one account, in table order. -/
def activeSessionsOf (now : Int) (userId : Nat) (sessions : List Session) :
    List Session :=
  sessions.filter (fun s => s.user_id == userId && s.isActive now)

/-- `cleanup_user_sessions` (sessions.rs:379-396): physically delete the
user's rows matching the staleness predicate. -/
def cleanupUserSessions (now : Int) (userId : Nat) (sessions : List Session) :
    List Session :=
  sessions.filter (fun s => !(s.user_id == userId && s.isStale now))

/-- `cleanup_sessions` (sessions.rs:356-377): physically delete every row
matching the staleness predicate. -/
def cleanupSessions (now : Int) (sessions : List Session) : List Session :=
  sessions.filter (fun s => !(s.isStale now))

/-- `create_or_update_session` (sessions.rs:40-174). In order:
(1) a row with this exact token hash (UNIQUE column, `fetch_optional`) gets
its `last_seen_at`, `device_info`, `ip_address` refreshed and its id is
returned; (2) else, when the supplied device info carries a `session_id`,
the account's most-recently-seen non-revoked unexpired row storing the same
identifier gets its token hash, `last_seen_at`, `expires_at` (now + 30 days)
and `device_info` rewritten in place and its id is returned; (3) else the
user's stale rows are purged, the active rows are counted, the least-recently
seen active row is revoked when the count is ≥ 5 (`MAX_CONCURRENT_SESSIONS`),
and a fresh row (revoked = false, `last_seen_at = created_at = NOW()`,
30-day expiry) is inserted. `freshId` stands for the generated primary key. -/
def createOrUpdateSession (now : Int) (freshId : Nat) (userId : Nat)
    (tokenHash : String) (deviceInfo : Option DeviceInfo)
    (ipAddress : Option String) (sessions : List Session) :
    List Session × Nat :=
  match sessions.find? (fun s => s.session_token_hash == tokenHash) with
  | some s =>
    (sessions.map (fun t =>
        if t.id == s.id then
          { t with last_seen_at := now, device_info := deviceInfo,
                   ip_address := ipAddress }
        else t),
     s.id)
  | none =>
    let deviceHit : Option Session :=
      match deviceInfo.bind (fun d => d.session_id) with
      | some sid =>
        List.argmax (fun s : Session => s.last_seen_at)
          ((activeSessionsOf now userId sessions).filter
            (fun s => s.devSid == some sid))
      | none => none
    match deviceHit with
    | some s =>
      (sessions.map (fun t =>
          if t.id == s.id then
            { t with session_token_hash := tokenHash, last_seen_at := now,
                     expires_at := now + thirtyDays,
                     device_info := deviceInfo }
          else t),
       s.id)
    | none =>
      let cleaned := cleanupUserSessions now userId sessions
      let active := activeSessionsOf now userId cleaned
      let afterEvict :=
        if 5 ≤ active.length then
          match List.argmin (fun s : Session => s.last_seen_at) active with
          | some oldest =>
            cleaned.map (fun t =>
              if t.id == oldest.id then { t with revoked := true } else t)
          | none => cleaned
        else cleaned
      (afterEvict ++
        [{ id := freshId, user_id := userId, session_token_hash := tokenHash,
           device_info := deviceInfo, ip_address := ipAddress,
           created_at := now, last_seen_at := now,
           expires_at := now + thirtyDays, revoked := false }],
       freshId)

/-- `validate_session` (sessions.rs:177-209): atomically touch `last_seen_at`
on the non-revoked unexpired row with this token hash and return its id
(`fetch_optional`); `none` when no row matches. -/
def validateSession (now : Int) (tokenHash : String)
    (sessions : List Session) : List Session × Option Nat :=
  let hit := fun (s : Session) =>
    s.session_token_hash == tokenHash && !s.revoked && decide (now < s.expires_at)
  ((sessions.map (fun s => if hit s then { s with last_seen_at := now } else s)),
   (sessions.find? hit).map (fun s => s.id))

/-- `update_session_token` (sessions.rs:218-290). When a device identifier is
supplied, rewrite the token hash, `last_seen_at` and `expires_at` (now + 30
days) of every non-revoked unexpired row of the account storing that
identifier, returning the first such id; when none matched (or no identifier
was supplied), fall back to the account's single most-recently-seen active
row; `none` only when the account has no active row at all. -/
def updateSessionToken (now : Int) (userId : Nat) (newTokenHash : String)
    (deviceSessionId : Option String) (sessions : List Session) :
    List Session × Option Nat :=
  let deviceHits : List Session :=
    match deviceSessionId with
    | some sid =>
      sessions.filter (fun s =>
        s.user_id == userId && s.devSid == some sid && s.isActive now)
    | none => []
  match deviceHits with
  | s :: _ =>
    (sessions.map (fun t =>
        if t.user_id == userId && t.devSid == deviceSessionId &&
            t.isActive now then
          { t with session_token_hash := newTokenHash, last_seen_at := now,
                   expires_at := now + thirtyDays }
        else t),
     some s.id)
  | [] =>
    match List.argmax (fun s : Session => s.last_seen_at)
        (activeSessionsOf now userId sessions) with
    | some m =>
      (sessions.map (fun t =>
          if t.id == m.id then
            { t with session_token_hash := newTokenHash, last_seen_at := now,
                     expires_at := now + thirtyDays }
          else t),
       some m.id)
    | none => (sessions, none)

/-- `revoke_session` (sessions.rs:311-327): set `revoked = true` on the row
matching both the session id and the user id; returns whether a row was hit. -/
def revokeSession (sessionId userId : Nat) (sessions : List Session) :
    List Session × Bool :=
  (sessions.map (fun s =>
      if s.id == sessionId && s.user_id == userId then
        { s with revoked := true }
      else s),
   sessions.any (fun s => s.id == sessionId && s.user_id == userId))

/-- `revoke_all_sessions` (sessions.rs:329-354): set `revoked = true` on every
row of the account, optionally sparing the one with the caller's token hash. -/
def revokeAllSessions (userId : Nat) (exceptTokenHash : Option String)
    (sessions : List Session) : List Session :=
  sessions.map (fun s =>
    if s.user_id == userId &&
        (match exceptTokenHash with
         | some h => !(s.session_token_hash == h)
         | none => true) then
      { s with revoked := true }
    else s)

/-- The session-registry operations named by the revocation-permanence claim,
as one step type so a single statement quantifies over all of them. -/
inductive RegistryOp where
  | create (now : Int) (freshId userId : Nat) (tokenHash : String)
      (deviceInfo : Option DeviceInfo) (ipAddress : Option String)
  | validate (now : Int) (tokenHash : String)
  | updateToken (now : Int) (userId : Nat) (newTokenHash : String)
      (deviceSessionId : Option String)
  | revoke (sessionId userId : Nat)
  | revokeAll (userId : Nat) (exceptTokenHash : Option String)
  | cleanupUser (now : Int) (userId : Nat)
  | cleanupAll (now : Int)

/-- Apply a registry operation to the table, discarding the returned value. -/
def RegistryOp.apply (sessions : List Session) : RegistryOp → List Session
  | .create now freshId userId tokenHash deviceInfo ipAddress =>
    (createOrUpdateSession now freshId userId tokenHash deviceInfo ipAddress
      sessions).1
  | .validate now tokenHash => (validateSession now tokenHash sessions).1
  | .updateToken now userId newTokenHash deviceSessionId =>
    (updateSessionToken now userId newTokenHash deviceSessionId sessions).1
  | .revoke sessionId userId => (revokeSession sessionId userId sessions).1
  | .revokeAll userId exceptTokenHash =>
    revokeAllSessions userId exceptTokenHash sessions
  | .cleanupUser now userId => cleanupUserSessions now userId sessions
  | .cleanupAll now => cleanupSessions now sessions

/-- The deletion window of an operation: `some now` when the operation runs a
cleanup routine at time `now` (the only code paths that physically delete
rows), `none` otherwise. -/
def RegistryOp.cleanupTime : RegistryOp → Option Int
  | .create now _ _ _ _ _ => some now
  | .cleanupUser now _ => some now
  | .cleanupAll now => some now
  | _ => none

/-- The outcome shape of the async session-store calls,
`Result<Option<Uuid>, sqlx::Error>` in the Rust: `Except.ok (some id)` is a
found session, `Except.ok none` an affirmative not-found, `Except.error` a
store failure. -/
abbrev StoreResult := Except String (Option Nat)

/-- `verify_user_from_headers_async` (database.rs:16-110), as a function of
the outcomes of its three effectful steps: JWT verification
(`verify_any_token`), `validate_session`, and `update_session_token`. The
Rust match tree: a failed JWT verification returns `None`; a validated
session returns the JWT-verified id; a not-found session falls through to the
token-refresh update, whose not-found returns `None`; either store error
returns the JWT-verified id (graceful degradation). -/
def verifyUserFromHeaders (jwtResult : Except String Nat)
    (validateResult updateResult : StoreResult) : Option Nat :=
  match jwtResult with
  | Except.error _ => none
  | Except.ok userId =>
    match validateResult with
    | Except.ok (some _) => some userId
    | Except.ok none =>
      match updateResult with
      | Except.ok (some _) => some userId
      | Except.ok none => none
      | Except.error _ => some userId
    | Except.error _ => some userId

/-- A state of the `ip_trial_limits` table keyed by source IP, holding each
IP's lifetime trial-activation count. -/
abbrev IpTrialTable := List (String × Nat)

/-- Lifetime trial count recorded for an IP (0 when no row exists). -/
def ipTrialCount (table : IpTrialTable) (ip : String) : Nat :=
  ((table.find? (fun r => r.1 == ip)).map (fun r => r.2)).getD 0

/-- Modelled from the spec: `check_ip_trial_limits` is invoked from
`ask_question_handler` (api.rs:509-524) but its definition is not under src/;
only the `IpTrialLimit` row model (models.rs:271-279) and the call site are.
Spec §4.5: reject if the IP's lifetime trial count is ≥ 3. -/
def checkIpTrialLimits (table : IpTrialTable) (ip : String) : Bool :=
  ipTrialCount table ip < 3

/-- Modelled from the spec: the upsert-increment of the IP's lifetime count
performed on successful trial creation (spec §4.5), absent from src/. -/
def recordIpTrialCreation (table : IpTrialTable) (ip : String) : IpTrialTable :=
  if table.any (fun r => r.1 == ip) then
    table.map (fun r => if r.1 == ip then (r.1, r.2 + 1) else r)
  else
    (ip, 1) :: table

/-- Modelled from the spec: one anonymous trial-creation attempt from an IP —
rejected (state unchanged) when `checkIpTrialLimits` fails, otherwise allowed
with the count upsert-incremented. -/
def attemptTrialCreation (table : IpTrialTable) (ip : String) :
    Bool × IpTrialTable :=
  if checkIpTrialLimits table ip then (true, recordIpTrialCreation table ip)
  else (false, table)

/-- Results of a sequence of trial-creation attempts from one IP, threading
the table state. -/
def trialCreationResults (table : IpTrialTable) (ip : String) :
    Nat → List Bool
  | 0 => []
  | n + 1 =>
    let (ok, table') := attemptTrialCreation table ip
    ok :: trialCreationResults table' ip n

/-- `verify_webhook_signature` (revenuecat.rs:237-241): exact string equality
of the Authorization header against `"Bearer "` followed by the configured
webhook secret. -/
def verifyWebhookSignature (authorizationHeader webhookSecret : String) :
    Bool :=
  authorizationHeader == "Bearer " ++ webhookSecret

/-- The authentication gate of `handle_revenuecat_webhook` (webhooks.rs:56-76):
the signature is checked only when the configured secret is non-empty
(`REVENUECAT_WEBHOOK_SECRET`, defaulting to the empty string when unset); a
missing Authorization header is compared as the empty string. `true` means
the handler proceeds to process the event. -/
def webhookGateAllows (webhookSecret : String)
    (authorizationHeader : Option String) : Bool :=
  if webhookSecret == "" then true
  else verifyWebhookSignature (authorizationHeader.getD "") webhookSecret

/-- The webhook handler's effect on account state, abstracting steps 2-4
(subscription sync) as a state transformer `sync`: an unauthenticated request
is rejected with 401 before any state change; an authenticated one runs the
sync. -/
def handleRevenuecatWebhook (webhookSecret : String)
    (authorizationHeader : Option String) (sync : List User → List User)
    (users : List User) : Except String Unit × List User :=
  if webhookGateAllows webhookSecret authorizationHeader then
    (Except.ok (), sync users)
  else
    (Except.error "Invalid webhook signature", users)

/-! ### Derived predicates used by the theorem statements -/

/-- The account's paid subscription window is set and already over:
`premium_expires_at` is non-null and strictly before `now`. -/
def HasExpiredWindow (now : Int) (u : User) : Prop :=
  ∃ e, u.premium_expires_at = some e ∧ e < now

/-- An account row on a `team` plan with an unexpired subscription window and
an exhausted counter: the spec allows it to send, the code denies it. -/
def cexTeamUser : User :=
  { id := 1, account_type := "team", account_status := "active",
    trial_messages_remaining := some 0, premium_expires_at := some 10,
    subscription_started_at := some 0, deleted_at := none,
    updated_at := some 0 }

/-! ### C1 — can_send_message -/

/-- C1, counterexample: a `team` account with `premium_expires_at` ten seconds
in the future and `trial_messages_remaining = 0`. The claim (spec rule 2)
allows it — `team` is listed among the unlimited types — but
`can_send_message` matches only `"professional" | "premium"` and falls through
to the counter test, denying it. -/
theorem can_send_message_claim_counterexample :
    claimCanSendMessage 0 (some cexTeamUser) = true ∧
    canSendMessage 0 (some cexTeamUser) = false := by
  constructor <;> rfl

/-- C1 (amended): an absent account is denied; a present account is allowed
iff either its subscription window is set and expired and its counter is
positive, or its window is NOT expired (unset, or not strictly before now)
and its `account_type` is `professional` or `premium` — `team` is not in the
unlimited set, and an unset window with those two types allows regardless of
the counter — or its window is not expired and its counter is positive. -/
theorem can_send_message_amended_spec (now : Int) (u : User) :
    canSendMessage now none = false ∧
    (canSendMessage now (some u) = true ↔
      (HasExpiredWindow now u ∧ 0 < u.trial_messages_remaining.getD 0) ∨
      (¬HasExpiredWindow now u ∧
        (u.account_type = "professional" ∨ u.account_type = "premium")) ∨
      (¬HasExpiredWindow now u ∧ 0 < u.trial_messages_remaining.getD 0)) := by
  refine ⟨rfl, ?_⟩
  cases hpe : u.premium_expires_at with
  | none =>
    simp only [canSendMessage, hpe, HasExpiredWindow]
    by_cases hp : u.account_type = "professional" <;>
      by_cases hq : u.account_type = "premium" <;>
      simp [hp, hq, hpe]
  | some e =>
    by_cases he : e < now
    · simp [canSendMessage, hpe, HasExpiredWindow, he]
    · by_cases hp : u.account_type = "professional" <;>
        by_cases hq : u.account_type = "premium" <;>
        simp [canSendMessage, hpe, HasExpiredWindow, he, hp, hq]

/-! ### C4 — auto_reset_individual_monthly_limits -/

/-- An individual account whose `updated_at` (40 days old) is older than its
`subscription_started_at` (5 days old): `COALESCE` picks `updated_at`, the
spec's "later of" picks `subscription_started_at`. Evaluated at
`now = 3456000` (day 40). -/
def cexCoalesceUser : User :=
  { id := 3, account_type := "individual", account_status := "active",
    trial_messages_remaining := some 0, premium_expires_at := none,
    subscription_started_at := some 3024000, deleted_at := none,
    updated_at := some 0 }

/-- C4, counterexample: at `now = 3456000` the claim's guard (elapsed since
the LATER of `updated_at`/`subscription_started_at`, here 5 days) excludes
`cexCoalesceUser` from the reset, but the sweep — whose SQL measures from
`COALESCE(updated_at, subscription_started_at)`, here the 40-day-old
`updated_at` — resets it to 20, changing the row the claim says is left
unchanged. -/
theorem auto_reset_claim_counterexample :
    claimResetGuard 3456000 cexCoalesceUser = false ∧
    (autoResetIndividualMonthlyLimits 3456000 [cexCoalesceUser]).1 =
      [{ cexCoalesceUser with trial_messages_remaining := some 20,
                              updated_at := some 3456000 }] ∧
    ({ cexCoalesceUser with trial_messages_remaining := some 20,
                            updated_at := some 3456000 } : User) ≠
      cexCoalesceUser := by
  refine ⟨rfl, rfl, ?_⟩
  decide

/-- The sweep guard of the amended claim, in logical form: condition (b)
measures the elapsed time from `updated_at` when it is non-null, else from
`subscription_started_at` (the SQL `COALESCE`), not from the later of the
two. -/
def ResetCond (now : Int) (u : User) : Prop :=
  u.account_type = "individual" ∧
  (∃ s, u.subscription_started_at = some s) ∧
  (u.trial_messages_remaining = none ∨
   (u.trial_messages_remaining = some 0 ∧
    ∃ b, (u.updated_at = some b ∨
          (u.updated_at = none ∧ u.subscription_started_at = some b)) ∧
      thirtyDays ≤ now - b))

/-- An individual account with counter 0 and `updated_at = 0`, evaluated at
day 31 and day 29 for the claim's concrete instances. -/
def resetInstanceUser : User :=
  { id := 4, account_type := "individual", account_status := "active",
    trial_messages_remaining := some 0, premium_expires_at := none,
    subscription_started_at := some 0, deleted_at := none,
    updated_at := some 0 }

/-- C4 (amended): the sweep sets `trial_messages_remaining` to 20 exactly for
individual accounts with a non-null `subscription_started_at` whose counter
is null, or exactly 0 with ≥ 30×24×3600 seconds elapsed since `updated_at`
when it is non-null, else since `subscription_started_at` (SQL `COALESCE`,
not the later of the two); every other account is unchanged. In particular an
individual account with counter 0 and `updated_at` 31 days in the past resets
to 20, while at 29 days it does not. -/
theorem auto_reset_amended_spec (now : Int) (users : List User) (u : User) :
    (resetGuard now u = true ↔ ResetCond now u) ∧
    (autoResetIndividualMonthlyLimits now users).1 = users.map (fun v =>
      if resetGuard now v then
        { v with trial_messages_remaining := some 20, updated_at := some now }
      else v) ∧
    (autoResetIndividualMonthlyLimits (31 * 86400) [resetInstanceUser]).1 =
      [{ resetInstanceUser with trial_messages_remaining := some 20,
                                updated_at := some (31 * 86400) }] ∧
    (autoResetIndividualMonthlyLimits (29 * 86400) [resetInstanceUser]).1 =
      [resetInstanceUser] := by
  refine ⟨?_, rfl, by decide, by decide⟩
  cases ht : u.trial_messages_remaining <;>
    cases hu : u.updated_at <;>
    cases hs : u.subscription_started_at <;>
    simp [resetGuard, ResetCond, ht, hu, hs]

/-! ### C5 — identity resolution graceful degradation -/

/-- C5: with a successfully JWT-verified account id, a session-store error
during validation, or during the token-refresh update after an affirmative
not-found, still authenticates as that id; the resolution is unauthenticated
exactly when both the validation and the refresh affirmatively report no
session (`Ok(None)`). -/
theorem identity_resolution_graceful_degradation
    (userId : Nat) (v u : StoreResult) (e : String) :
    (verifyUserFromHeaders (Except.ok userId) v u = none ↔
      (v = Except.ok none ∧ u = Except.ok none)) ∧
    verifyUserFromHeaders (Except.ok userId) (Except.error e) u = some userId ∧
    verifyUserFromHeaders (Except.ok userId) (Except.ok none)
      (Except.error e) = some userId := by
  refine ⟨?_, rfl, rfl⟩
  cases v with
  | error e' => simp [verifyUserFromHeaders]
  | ok o =>
    cases o with
    | some sid => simp [verifyUserFromHeaders]
    | none =>
      cases u with
      | error e' => simp [verifyUserFromHeaders]
      | ok o' => cases o' <;> simp [verifyUserFromHeaders]

/-! ### C7 — IP trial throttle (modelled from the spec) -/

/-- Upsert-incrementing an IP's count raises that IP's lifetime count by
exactly one. -/
theorem ipTrialCount_record (table : IpTrialTable) (ip : String) :
    ipTrialCount (recordIpTrialCreation table ip) ip =
      ipTrialCount table ip + 1 := by
  induction table with
  | nil => simp [recordIpTrialCreation, ipTrialCount]
  | cons r t ih =>
    by_cases hr : r.1 = ip
    · simp [recordIpTrialCreation, ipTrialCount, hr, List.find?]
    · have hpr : (r.1 == ip) = false := by simp [hr]
      have hany : ((r :: t).any (fun s => s.1 == ip)) =
          t.any (fun s => s.1 == ip) := by simp [hpr]
      have hskip : ∀ l : IpTrialTable,
          ipTrialCount (r :: l) ip = ipTrialCount l ip := by
        intro l
        simp [ipTrialCount, List.find?_cons, hpr]
      by_cases ht : t.any (fun s => s.1 == ip) = true
      · have hrec : recordIpTrialCreation (r :: t) ip =
            r :: (t.map fun x => if x.1 = ip then (x.1, x.2 + 1) else x) := by
          simp [recordIpTrialCreation, hany, ht, hr]
        have hrect : recordIpTrialCreation t ip =
            t.map (fun x => if x.1 = ip then (x.1, x.2 + 1) else x) := by
          simp [recordIpTrialCreation, ht]
        rw [hrec, hskip, hskip, ← hrect, ih]
      · have ht' : t.any (fun s => s.1 == ip) = false :=
          Bool.eq_false_iff.mpr ht
        have hnone : t.find? (fun s => s.1 == ip) = none := by
          rw [List.find?_eq_none]
          intro x hx
          simpa using List.any_eq_false.mp ht' x hx
        have hrec : recordIpTrialCreation (r :: t) ip = (ip, 1) :: r :: t := by
          simp [recordIpTrialCreation, hany, ht']
        rw [hrec, hskip]
        simp [ipTrialCount, List.find?_cons, hpr, hnone]

/-- One step of `trialCreationResults`, for rewriting. -/
theorem trialCreationResults_succ (table : IpTrialTable) (ip : String)
    (n : Nat) :
    trialCreationResults table ip (n + 1) =
      (attemptTrialCreation table ip).1 ::
        trialCreationResults (attemptTrialCreation table ip).2 ip n := rfl

/-- C7: an anonymous trial-creation attempt is allowed exactly when the IP's
lifetime count is below 3, and from a fresh IP (count 0) exactly the first
three attempts succeed and the fourth is rejected. -/
theorem ip_trial_throttle_spec (table : IpTrialTable) (ip : String) :
    ((attemptTrialCreation table ip).1 = true ↔ ipTrialCount table ip < 3) ∧
    (ipTrialCount table ip = 0 →
      trialCreationResults table ip 4 = [true, true, true, false]) := by
  constructor
  · by_cases h : ipTrialCount table ip < 3 <;>
      simp [attemptTrialCreation, checkIpTrialLimits, h]
  · intro h0
    have c0 : checkIpTrialLimits table ip = true := by
      simp [checkIpTrialLimits, h0]
    have e1 : (attemptTrialCreation table ip).2 =
        recordIpTrialCreation table ip := by
      simp [attemptTrialCreation, c0]
    have h1 : ipTrialCount (recordIpTrialCreation table ip) ip = 1 := by
      rw [ipTrialCount_record, h0]
    have c1 : checkIpTrialLimits (recordIpTrialCreation table ip) ip = true := by
      simp [checkIpTrialLimits, h1]
    have h2 : ipTrialCount
        (recordIpTrialCreation (recordIpTrialCreation table ip) ip) ip = 2 := by
      rw [ipTrialCount_record, h1]
    have c2 : checkIpTrialLimits
        (recordIpTrialCreation (recordIpTrialCreation table ip) ip) ip = true := by
      simp [checkIpTrialLimits, h2]
    have h3 : ipTrialCount
        (recordIpTrialCreation
          (recordIpTrialCreation (recordIpTrialCreation table ip) ip) ip) ip = 3 := by
      rw [ipTrialCount_record, h2]
    have c3 : checkIpTrialLimits
        (recordIpTrialCreation
          (recordIpTrialCreation (recordIpTrialCreation table ip) ip) ip) ip = false := by
      simp [checkIpTrialLimits, h3]
    simp [trialCreationResults_succ, attemptTrialCreation, c0, c1, c2, c3,
      trialCreationResults]

/-- C7, witness: from an empty table, exactly three trial creations from one
IP succeed and the fourth is rejected. -/
theorem ip_trial_throttle_spec_witness :
    trialCreationResults [] "203.0.113.7" 4 = [true, true, true, false] :=
  (ip_trial_throttle_spec [] "203.0.113.7").2 rfl

/-! ### C9 — webhook authentication -/

/-- C9, counterexample: with `REVENUECAT_WEBHOOK_SECRET` unset or empty
(webhooks.rs reads it with `unwrap_or_else(String::new)` and only verifies
when non-empty), a delivery whose Authorization header matches nothing is
still processed: the gate passes and the handler runs the sync, refuting
"every request whose header does not match exactly is rejected". -/
theorem webhook_auth_claim_counterexample :
    webhookGateAllows "" (some "not-the-secret") = true ∧
    verifyWebhookSignature "not-the-secret" "" = false ∧
    (handleRevenuecatWebhook "" (some "not-the-secret") id []).1 =
      Except.ok () := by
  refine ⟨rfl, by decide, rfl⟩

/-- C9 (amended): when the configured webhook secret is non-empty, the
request's Authorization header (absent treated as empty) is compared for
exact string equality against `"Bearer "` followed by the secret; the
handler processes the delivery iff they match, and on mismatch it rejects
before any account state is modified. When the secret is empty or unset,
verification is skipped entirely. -/
theorem webhook_auth_amended_spec (secret : String) (auth : Option String)
    (sync : List User → List User) (users : List User) (hs : secret ≠ "") :
    (handleRevenuecatWebhook secret auth sync users =
        (Except.ok (), sync users) ↔
      auth.getD "" = "Bearer " ++ secret) ∧
    (auth.getD "" ≠ "Bearer " ++ secret →
      handleRevenuecatWebhook secret auth sync users =
        (Except.error "Invalid webhook signature", users)) := by
  by_cases hm : auth.getD "" = "Bearer " ++ secret <;>
    simp [handleRevenuecatWebhook, webhookGateAllows, verifyWebhookSignature,
      hs, hm]

/-- C9, witness: with a non-empty secret, a correctly signed delivery is
processed. -/
theorem webhook_auth_amended_spec_witness :
    ("s" : String) ≠ "" ∧
    (handleRevenuecatWebhook "s" (some "Bearer s") id [] =
        (Except.ok (), id ([] : List User)) ↔
      (some "Bearer s").getD "" = "Bearer " ++ "s") :=
  ⟨by decide,
   (webhook_auth_amended_spec "s" (some "Bearer s") id [] (by decide)).1⟩

/-! ### C6 — soft delete / restore round trip -/

/-- The restore row guard, characterized in logical form. -/
theorem restoreGuard_iff (now : Int) (u : User) :
    restoreGuard now u = true ↔
      u.account_status = "deleted" ∧
        ∃ d, u.deleted_at = some d ∧ now - thirtyDays < d := by
  cases hd : u.deleted_at <;> simp [restoreGuard, hd]

/-- `restore_user` succeeds exactly when some row matches the id and the
guard. -/
theorem restoreUser_ok_iff (now : Int) (uid : Nat) (users : List User) :
    (restoreUser now uid users).1 = Except.ok () ↔
      ∃ u ∈ users, u.id = uid ∧ restoreGuard now u = true := by
  constructor
  · intro hc
    by_cases h : users.countP (fun u => u.id == uid && restoreGuard now u) = 0
    · exfalso
      unfold restoreUser at hc
      rw [if_pos h] at hc
      exact Except.noConfusion hc
    · obtain ⟨u, hu, hup⟩ := List.countP_pos_iff.mp (Nat.pos_of_ne_zero h)
      simp only [Bool.and_eq_true, beq_iff_eq] at hup
      exact ⟨u, hu, hup.1, hup.2⟩
  · rintro ⟨u, hu, hid, hg⟩
    have h : users.countP (fun u => u.id == uid && restoreGuard now u) ≠ 0 := by
      intro h0
      rw [List.countP_eq_zero] at h0
      exact h0 u hu (by simp [hid, hg])
    unfold restoreUser
    rw [if_neg h]

/-- The soft-deleted image of a matching row is in the table after
`soft_delete_user`. -/
theorem softDeleteUser_mem (t0 : Int) (uid : Nat) (users : List User)
    (u : User) (hu : u ∈ users) (hid : u.id = uid) :
    { u with account_status := "deleted", deleted_at := some t0,
             updated_at := some t0 } ∈ softDeleteUser t0 uid users := by
  unfold softDeleteUser
  exact List.mem_map.mpr ⟨u, hu, by simp [hid]⟩

/-- C6: `restore_user` succeeds exactly when the account row has status
`deleted`, a non-null `deleted_at`, and `deleted_at + 30 days > now`; a
failed restore leaves the table unchanged; and soft-delete at `t0` followed
by restore at day 29 succeeds and returns the row to `active` with
`deleted_at` cleared, while restore at day 31 is rejected and changes
nothing. -/
theorem soft_delete_restore_spec (now t0 : Int) (uid : Nat)
    (users : List User) (hmem : ∃ u ∈ users, u.id = uid) :
    ((restoreUser now uid users).1 = Except.ok () ↔
      ∃ u ∈ users, u.id = uid ∧ u.account_status = "deleted" ∧
        ∃ d, u.deleted_at = some d ∧ now - thirtyDays < d) ∧
    ((restoreUser now uid users).1 ≠ Except.ok () →
      (restoreUser now uid users).2 = users) ∧
    (restoreUser (t0 + 29 * 86400) uid (softDeleteUser t0 uid users)).1 =
      Except.ok () ∧
    (∀ v ∈ (restoreUser (t0 + 29 * 86400) uid
        (softDeleteUser t0 uid users)).2,
      v.id = uid → v.account_status = "active" ∧ v.deleted_at = none) ∧
    restoreUser (t0 + 31 * 86400) uid (softDeleteUser t0 uid users) =
      (Except.error "RowNotFound", softDeleteUser t0 uid users) := by
  obtain ⟨u0, hu0, hid0⟩ := hmem
  have hdel := softDeleteUser_mem t0 uid users u0 hu0 hid0
  have hok : (restoreUser (t0 + 29 * 86400) uid
      (softDeleteUser t0 uid users)).1 = Except.ok () := by
    rw [restoreUser_ok_iff]
    refine ⟨_, hdel, hid0, ?_⟩
    rw [restoreGuard_iff]
    exact ⟨rfl, t0, rfl, by simp only [thirtyDays]; omega⟩
  refine ⟨?_, ?_, hok, ?_, ?_⟩
  · rw [restoreUser_ok_iff]
    constructor
    · rintro ⟨u, hu, hid, hg⟩
      exact ⟨u, hu, hid, (restoreGuard_iff now u).mp hg⟩
    · rintro ⟨u, hu, hid, hg⟩
      exact ⟨u, hu, hid, (restoreGuard_iff now u).mpr hg⟩
  · intro hne
    unfold restoreUser at hne ⊢
    by_cases h : users.countP (fun u => u.id == uid && restoreGuard now u) = 0
    · simp [h]
    · exact absurd (by simp [h]) hne
  · intro v hv hvid
    have hcne : ¬(softDeleteUser t0 uid users).countP
        (fun u => u.id == uid && restoreGuard (t0 + 29 * 86400) u) = 0 := by
      intro hzero
      unfold restoreUser at hok
      rw [if_pos hzero] at hok
      exact Except.noConfusion hok
    unfold restoreUser at hv
    simp only [if_neg hcne] at hv
    obtain ⟨w, hw, hweq⟩ := List.mem_map.mp hv
    by_cases hwm : (w.id == uid && restoreGuard (t0 + 29 * 86400) w) = true
    · rw [if_pos hwm] at hweq
      subst hweq
      exact ⟨rfl, rfl⟩
    · rw [if_neg hwm] at hweq
      subst hweq
      obtain ⟨x, hx, hxeq⟩ := List.mem_map.mp hw
      by_cases hxm : (x.id == uid) = true
      · rw [if_pos hxm] at hxeq
        exfalso
        apply hwm
        rw [← hxeq]
        simp only [Bool.and_eq_true, beq_iff_eq]
        subst hxeq
        refine ⟨hvid, ?_⟩
        rw [restoreGuard_iff]
        exact ⟨rfl, t0, rfl, by simp only [thirtyDays]; omega⟩
      · rw [if_neg hxm] at hxeq
        subst hxeq
        exact absurd (by simp [hvid]) hxm
  · have hzero : (softDeleteUser t0 uid users).countP
        (fun u => u.id == uid && restoreGuard (t0 + 31 * 86400) u) = 0 := by
      rw [List.countP_eq_zero]
      intro v hv
      obtain ⟨x, hx, hxeq⟩ := List.mem_map.mp hv
      by_cases hxm : (x.id == uid) = true
      · rw [if_pos hxm] at hxeq
        subst hxeq
        simp only [Bool.and_eq_true, beq_iff_eq, not_and]
        intro _ hg
        rw [restoreGuard_iff] at hg
        obtain ⟨_, d, hd, hlt⟩ := hg
        simp only [Option.some.injEq] at hd
        subst hd
        simp only [thirtyDays] at hlt
        omega
      · rw [if_neg hxm] at hxeq
        subst hxeq
        simp only [Bool.and_eq_true, beq_iff_eq]
        rintro ⟨hbeq, _⟩
        exact hxm (by simp [hbeq])
    unfold restoreUser
    rw [if_pos hzero]

/-- An active account row used to instantiate the round-trip theorem. -/
def restoreWitnessUser : User :=
  { id := 6, account_type := "individual", account_status := "active",
    trial_messages_remaining := some 5, premium_expires_at := none,
    subscription_started_at := none, deleted_at := none,
    updated_at := some 0 }

/-- C6, witness: soft-deleting `restoreWitnessUser` at time 0 and restoring
at day 29 succeeds, while restoring at day 31 is rejected and changes
nothing. -/
theorem soft_delete_restore_spec_witness :
    (restoreUser (0 + 29 * 86400) 6 (softDeleteUser 0 6 [restoreWitnessUser])).1 =
      Except.ok () ∧
    restoreUser (0 + 31 * 86400) 6 (softDeleteUser 0 6 [restoreWitnessUser]) =
      (Except.error "RowNotFound", softDeleteUser 0 6 [restoreWitnessUser]) := by
  have h := soft_delete_restore_spec 0 0 6 [restoreWitnessUser]
    ⟨restoreWitnessUser, by simp, rfl⟩
  exact ⟨h.2.2.1, h.2.2.2.2⟩

/-! ### C2 — decrement_trial_message -/

/-- The decrement row guard, in logical form: a non-unlimited account type and
a non-null strictly positive counter. -/
def DecrementCond (u : User) : Prop :=
  ¬(u.account_type = "professional" ∨ u.account_type = "team" ∨
    u.account_type = "premium") ∧
  ∃ n, u.trial_messages_remaining = some n ∧ 0 < n

/-- The decrement guard characterized. -/
theorem decrementGuard_iff (u : User) :
    decrementGuard u = true ↔ DecrementCond u := by
  cases ht : u.trial_messages_remaining <;>
    simp [decrementGuard, DecrementCond, ht, and_assoc]

/-- The decrement call on a present user id, unfolded. -/
theorem decrementTrialMessage_some (now : Int) (uid : Nat)
    (users : List User) :
    decrementTrialMessage now (some uid) users =
      if users.countP (fun u => u.id == uid && decrementGuard u) = 0 then
        (Except.error "No messages remaining or user has unlimited plan",
         users)
      else
        (Except.ok (), users.map (fun u =>
          if u.id == uid && decrementGuard u then
            { u with trial_messages_remaining := some (u.trial_messages_remaining.getD 0 - 1),
                     updated_at := some now }
          else u)) := rfl

/-- All non-null counters in the table are non-negative. -/
def NonNegCounters (users : List User) : Prop :=
  ∀ u ∈ users, ∀ n, u.trial_messages_remaining = some n → 0 ≤ n

/-- One decrement call preserves non-negativity of every counter. -/
theorem decrement_nonneg_step (now : Int) (userId : Option Nat)
    (users : List User) (hnn : NonNegCounters users) :
    NonNegCounters (decrementTrialMessage now userId users).2 := by
  cases userId with
  | none => exact hnn
  | some uid =>
    rw [decrementTrialMessage_some]
    by_cases h : users.countP (fun u => u.id == uid && decrementGuard u) = 0
    · simpa [h] using hnn
    · simp only [if_neg h]
      intro v hv n hn
      obtain ⟨u, hu, hueq⟩ := List.mem_map.mp hv
      by_cases hm : (u.id == uid && decrementGuard u) = true
      · rw [if_pos hm] at hueq
        subst hueq
        simp only [Option.some.injEq] at hn
        have hg := (decrementGuard_iff u).mp (Bool.and_eq_true _ _ ▸ hm).2
        obtain ⟨_, m, hmeq, hmpos⟩ := hg
        rw [hmeq] at hn
        simp only [Option.getD_some] at hn
        omega
      · rw [if_neg hm] at hueq
        subst hueq
        exact hnn u hu n hn

/-- Any sequence of decrement calls preserves non-negativity. -/
theorem decrement_nonneg_foldl (ops : List (Int × Option Nat))
    (users : List User) (hnn : NonNegCounters users) :
    NonNegCounters
      (ops.foldl (fun st p => (decrementTrialMessage p.1 p.2 st).2) users) := by
  induction ops generalizing users with
  | nil => exact hnn
  | cons p rest ih =>
    exact ih _ (decrement_nonneg_step p.1 p.2 users hnn)

/-- C2: the guarded decrement succeeds iff the account row exists with a
positive counter and a non-unlimited type; every row is either decremented by
exactly one (when it matches) or untouched; any failure returns the distinct
no-quota error (or the unauthenticated error for a missing id) with the table
unchanged; and no sequence of decrements ever drives a counter negative. -/
theorem decrement_trial_message_spec (now : Int) (uid : Nat)
    (users : List User) (ops : List (Int × Option Nat))
    (hnn : NonNegCounters users) :
    ((decrementTrialMessage now (some uid) users).1 = Except.ok () ↔
      ∃ u ∈ users, u.id = uid ∧ DecrementCond u) ∧
    ((decrementTrialMessage now (some uid) users).1 ≠ Except.ok () →
      decrementTrialMessage now (some uid) users =
        (Except.error "No messages remaining or user has unlimited plan",
         users)) ∧
    decrementTrialMessage now none users =
      (Except.error "User not authenticated", users) ∧
    List.Forall₂ (fun u v =>
      (u.id = uid ∧ DecrementCond u →
        v.trial_messages_remaining =
          some (u.trial_messages_remaining.getD 0 - 1) ∧ v.id = u.id) ∧
      (¬(u.id = uid ∧ DecrementCond u) → v = u))
      users (decrementTrialMessage now (some uid) users).2 ∧
    NonNegCounters
      (ops.foldl (fun st p => (decrementTrialMessage p.1 p.2 st).2) users) := by
  refine ⟨?_, ?_, rfl, ?_, decrement_nonneg_foldl ops users hnn⟩
  · rw [decrementTrialMessage_some]
    by_cases h : users.countP (fun u => u.id == uid && decrementGuard u) = 0
    · rw [if_pos h]
      rw [List.countP_eq_zero] at h
      constructor
      · intro hc
        exact Except.noConfusion hc
      · rintro ⟨u, hu, hid, hg⟩
        exact absurd (by simp [hid, (decrementGuard_iff u).mpr hg] :
          (u.id == uid && decrementGuard u) = true) (by simpa using h u hu)
    · obtain ⟨u, hu, hup⟩ := List.countP_pos_iff.mp (Nat.pos_of_ne_zero h)
      simp only [Bool.and_eq_true, beq_iff_eq] at hup
      rw [if_neg h]
      exact ⟨fun _ => ⟨u, hu, hup.1, (decrementGuard_iff u).mp hup.2⟩,
        fun _ => rfl⟩
  · intro hne
    rw [decrementTrialMessage_some] at hne ⊢
    by_cases h : users.countP (fun u => u.id == uid && decrementGuard u) = 0
    · rw [if_pos h]
    · exact absurd (by simp [h]) hne
  · rw [decrementTrialMessage_some]
    by_cases h : users.countP (fun u => u.id == uid && decrementGuard u) = 0
    · have hall := List.countP_eq_zero.mp h
      rw [if_pos h]
      rw [List.forall₂_same]
      intro u hu
      refine ⟨?_, fun _ => rfl⟩
      rintro ⟨hid, hc⟩
      exact absurd (by simp [hid, (decrementGuard_iff u).mpr hc] :
        (u.id == uid && decrementGuard u) = true) (by simpa using hall u hu)
    · rw [if_neg h]
      simp only
      rw [List.forall₂_map_right_iff, List.forall₂_same]
      intro u hu
      by_cases hm : (u.id == uid && decrementGuard u) = true
      · rw [if_pos hm]
        refine ⟨fun _ => ⟨rfl, rfl⟩, ?_⟩
        intro hno
        exfalso
        simp only [Bool.and_eq_true, beq_iff_eq] at hm
        exact hno ⟨hm.1, (decrementGuard_iff u).mp hm.2⟩
      · rw [if_neg hm]
        refine ⟨?_, fun _ => rfl⟩
        rintro ⟨hid, hc⟩
        exact absurd (by simp [hid, (decrementGuard_iff u).mpr hc] :
          (u.id == uid && decrementGuard u) = true) hm

/-- A registered-trial account with one message left. -/
def decWitnessUser : User :=
  { id := 7, account_type := "trial_registered", account_status := "active",
    trial_messages_remaining := some 1, premium_expires_at := none,
    subscription_started_at := none, deleted_at := none,
    updated_at := some 0 }

/-- C2, witness: decrementing `decWitnessUser` (counter 1) succeeds. -/
theorem decrement_trial_message_spec_witness :
    (decrementTrialMessage 0 (some 7) [decWitnessUser]).1 = Except.ok () :=
  ((decrement_trial_message_spec 0 7 [decWitnessUser] []
      (by
        intro u hu n hn
        simp only [List.mem_singleton] at hu
        subst hu
        simp only [decWitnessUser, Option.some.injEq] at hn
        omega)).1).mpr
    ⟨decWitnessUser, by simp, rfl, by simp [decWitnessUser], 1, rfl, by omega⟩

/-! ### Session-registry helper lemmas -/

/-- Filtering by `q` first does not change a `p`-filter when `p` implies `q`
on the list. -/
theorem filter_filter_of_imp {α : Type} (p q : α → Bool) (l : List α)
    (h : ∀ a ∈ l, p a = true → q a = true) :
    (l.filter q).filter p = l.filter p := by
  rw [List.filter_filter]
  apply List.filter_congr
  intro a ha
  cases hp : p a
  · simp
  · simp [h a ha hp]

/-- A filter with a unique match on a duplicate-free list is that single
element. -/
theorem filter_eq_singleton {α : Type} (p : α → Bool) (l : List α) (a : α)
    (hnd : l.Nodup) (ha : a ∈ l) (hpa : p a = true)
    (huniq : ∀ b ∈ l, p b = true → b = a) : l.filter p = [a] := by
  induction l with
  | nil => cases ha
  | cons x xs ih =>
    have hx_nin := (List.nodup_cons.mp hnd).1
    have hnd' := (List.nodup_cons.mp hnd).2
    rcases List.mem_cons.mp ha with rfl | hmem
    · rw [List.filter_cons_of_pos hpa]
      have hnil : xs.filter p = [] := by
        rw [List.filter_eq_nil_iff]
        intro b hb hpb
        have hba := huniq b (List.mem_cons_of_mem _ hb) hpb
        exact hx_nin (hba ▸ hb)
      rw [hnil]
    · have hpx : p x = false := by
        cases hpx : p x
        · rfl
        · exfalso
          have hxa := huniq x (List.mem_cons_self x xs) hpx
          exact hx_nin (hxa ▸ hmem)
      rw [List.filter_cons_of_neg (by simp [hpx])]
      exact ih hnd' hmem
        (fun b hb hpb => huniq b (List.mem_cons_of_mem _ hb) hpb)

/-- The fresh row inserted by `create_or_update_session` is active. -/
theorem isActive_new (now : Int) (fid uid : Nat) (th : String)
    (d : Option DeviceInfo) (ip : Option String) :
    Session.isActive now
      { id := fid, user_id := uid, session_token_hash := th,
        device_info := d, ip_address := ip, created_at := now,
        last_seen_at := now, expires_at := now + thirtyDays,
        revoked := false } = true := by
  simp only [Session.isActive, Bool.not_false, Bool.true_and,
    decide_eq_true_eq, thirtyDays]
  omega

/-- Purging a user's stale rows preserves the account's active-session list
whenever no active row is more than 90 days idle. -/
theorem activeSessionsOf_cleanup (now : Int) (uid : Nat)
    (sessions : List Session)
    (hstale : ∀ s ∈ sessions, s.user_id = uid → s.isActive now = true →
      now - ninetyDays ≤ s.last_seen_at) :
    activeSessionsOf now uid (cleanupUserSessions now uid sessions) =
      activeSessionsOf now uid sessions := by
  unfold activeSessionsOf cleanupUserSessions
  apply filter_filter_of_imp
  intro s hs hp
  simp only [Bool.and_eq_true, beq_iff_eq] at hp
  obtain ⟨hsu, hact⟩ := hp
  have hact' := hact
  unfold Session.isActive at hact'
  simp only [Bool.and_eq_true, Bool.not_eq_true', decide_eq_true_eq] at hact'
  obtain ⟨hrev, hexp⟩ := hact'
  have hls := hstale s hs hsu hact
  have h1 : decide (s.expires_at < now) = false := decide_eq_false (by omega)
  have h2 : decide (s.last_seen_at < now - ninetyDays) = false :=
    decide_eq_false (by omega)
  have hns : s.isStale now = false := by
    simp [Session.isStale, hrev, h1, h2]
  simp [hns]

/-- The active-session list after revoking the row with id `m.id`: the other
active rows, in order. -/
theorem activeSessionsOf_revoke (now : Int) (uid : Nat) (l : List Session)
    (m : Session) :
    activeSessionsOf now uid
      (l.map (fun t => if t.id == m.id then { t with revoked := true } else t)) =
      l.filter (fun t =>
        (t.user_id == uid && t.isActive now) && !(t.id == m.id)) := by
  unfold activeSessionsOf
  rw [List.filter_map]
  have h1 : l.filter
      ((fun s => s.user_id == uid && s.isActive now) ∘
        (fun t => if t.id == m.id then { t with revoked := true } else t)) =
      l.filter (fun t =>
        (t.user_id == uid && t.isActive now) && !(t.id == m.id)) := by
    apply List.filter_congr
    intro t _
    by_cases ht : (t.id == m.id) = true
    · simp [Function.comp, ht, Session.isActive]
    · simp only [Bool.not_eq_true] at ht
      simp [Function.comp, ht]
  rw [h1]
  have h2 : ∀ t ∈ l.filter (fun t =>
      (t.user_id == uid && t.isActive now) && !(t.id == m.id)),
      (if t.id == m.id then { t with revoked := true } else t) = t := by
    intro t ht
    have hq := (List.mem_filter.mp ht).2
    simp only [Bool.and_eq_true, Bool.not_eq_true'] at hq
    simp [hq.2]
  rw [List.map_congr_left h2]
  simp

/-- In a list with duplicate-free ids, exactly one row carries the id of a
member. -/
theorem countP_id_eq_one (l : List Session) (m : Session)
    (hids : (l.map Session.id).Nodup) (hm : m ∈ l) :
    l.countP (fun t => t.id == m.id) = 1 := by
  have h1 : l.countP (fun t => t.id == m.id) =
      (l.map Session.id).countP (· == m.id) := by
    rw [List.countP_map]
    rfl
  rw [h1]
  have : (l.map Session.id).countP (· == m.id) = (l.map Session.id).count m.id := rfl
  rw [this]
  exact List.count_eq_one_of_mem hids (List.mem_map.mpr ⟨m, hm, rfl⟩)

/-- Dropping the unique row with a member's id from a duplicate-free list
shortens it by exactly one. -/
theorem length_filter_ne_id (l : List Session) (m : Session)
    (hids : (l.map Session.id).Nodup) (hm : m ∈ l) :
    (l.filter (fun t => !(t.id == m.id))).length + 1 = l.length := by
  have hlen := List.length_eq_countP_add_countP (fun t : Session => t.id == m.id) l
  have hcnt := countP_id_eq_one l m hids hm
  have hbridge : l.countP (fun t => decide (¬(t.id == m.id) = true)) =
      l.countP (fun t => !(t.id == m.id)) := by
    apply List.countP_congr
    intro t _
    cases h : (t.id == m.id) <;> simp [h]
  rw [← List.countP_eq_length_filter]
  omega

/-! ### C8 — token refresh continuity -/

/-- `create_or_update_session` branch 2, unfolded: when no row carries the
token hash and exactly one active row of the account stores the device
identifier, that row is rewritten in place and its id returned. -/
theorem createOrUpdateSession_deviceHit (now : Int) (fid uid : Nat)
    (th : String) (d : DeviceInfo) (sid : String) (ip : Option String)
    (sessions : List Session) (s₀ : Session)
    (hfind : sessions.find? (fun s => s.session_token_hash == th) = none)
    (hdsid : d.session_id = some sid)
    (hflt : (activeSessionsOf now uid sessions).filter
        (fun s => s.devSid == some sid) = [s₀]) :
    createOrUpdateSession now fid uid th (some d) ip sessions =
      (sessions.map (fun t =>
          if t.id == s₀.id then
            { t with session_token_hash := th, last_seen_at := now,
                     expires_at := now + thirtyDays, device_info := some d }
          else t),
       s₀.id) := by
  unfold createOrUpdateSession
  rw [hfind]
  have hb : (some d).bind (fun d => d.session_id) = some sid := by
    simp [hdsid]
  dsimp only
  rw [hb]
  dsimp only
  rw [hflt]
  simp [List.argmax, List.argAux]

/-- `update_session_token` device path, unfolded: with exactly one active row
of the account storing the device identifier, that row is rewritten and its
id returned. -/
theorem updateSessionToken_deviceHit (now : Int) (uid : Nat) (th : String)
    (sid : String) (sessions : List Session) (s₀ : Session)
    (hflt : sessions.filter (fun s =>
        s.user_id == uid && s.devSid == some sid && s.isActive now) = [s₀]) :
    updateSessionToken now uid th (some sid) sessions =
      (sessions.map (fun t =>
          if t.user_id == uid && t.devSid == some sid && t.isActive now then
            { t with session_token_hash := th, last_seen_at := now,
                     expires_at := now + thirtyDays }
          else t),
       some s₀.id) := by
  unfold updateSessionToken
  dsimp only
  rw [hflt]

/-- C8: when the presented token hash is new to the table and exactly one
non-revoked, non-expired session of the account stores the supplied device
identifier, both `create_or_update_session` and `update_session_token`
rewrite that session's token hash and expiry in place and return its id: the
table keeps its length (no insert), the account's active-session count is
unchanged (no eviction), and every other row is untouched. -/
theorem token_refresh_continuity_spec (now : Int) (fid uid : Nat)
    (th₁ th₂ : String) (d : DeviceInfo) (sid : String) (ip : Option String)
    (sessions : List Session) (s₀ : Session)
    (hids : (sessions.map Session.id).Nodup)
    (htok : ∀ s ∈ sessions, ¬s.session_token_hash = th₁)
    (hdsid : d.session_id = some sid)
    (hs₀ : s₀ ∈ sessions) (hs₀u : s₀.user_id = uid)
    (hs₀d : s₀.devSid = some sid) (hs₀a : s₀.isActive now = true)
    (huniq : ∀ t ∈ sessions, t.user_id = uid → t.devSid = some sid →
      t.isActive now = true → t = s₀) :
    (createOrUpdateSession now fid uid th₁ (some d) ip sessions).2 = s₀.id ∧
    (updateSessionToken now uid th₂ (some sid) sessions).2 = some s₀.id ∧
    (createOrUpdateSession now fid uid th₁ (some d) ip sessions).1.length =
      sessions.length ∧
    (updateSessionToken now uid th₂ (some sid) sessions).1.length =
      sessions.length ∧
    (activeSessionsOf now uid
        (createOrUpdateSession now fid uid th₁ (some d) ip sessions).1).length =
      (activeSessionsOf now uid sessions).length ∧
    (activeSessionsOf now uid
        (updateSessionToken now uid th₂ (some sid) sessions).1).length =
      (activeSessionsOf now uid sessions).length ∧
    List.Forall₂ (fun t v =>
      (t = s₀ → v.id = s₀.id ∧ v.session_token_hash = th₁ ∧
        v.expires_at = now + thirtyDays ∧ v.user_id = s₀.user_id ∧
        v.revoked = s₀.revoked) ∧
      (t ≠ s₀ → v = t)) sessions
      (createOrUpdateSession now fid uid th₁ (some d) ip sessions).1 ∧
    List.Forall₂ (fun t v =>
      (t = s₀ → v.id = s₀.id ∧ v.session_token_hash = th₂ ∧
        v.expires_at = now + thirtyDays ∧ v.user_id = s₀.user_id ∧
        v.revoked = s₀.revoked) ∧
      (t ≠ s₀ → v = t)) sessions
      (updateSessionToken now uid th₂ (some sid) sessions).1 := by
  have hnd : sessions.Nodup := List.Nodup.of_map _ hids
  have hrev₀ : s₀.revoked = false := by
    unfold Session.isActive at hs₀a
    simp only [Bool.and_eq_true, Bool.not_eq_true'] at hs₀a
    exact hs₀a.1
  have hfind : sessions.find? (fun s => s.session_token_hash == th₁) = none := by
    rw [List.find?_eq_none]
    intro s hs
    simpa using htok s hs
  have hfltA : (activeSessionsOf now uid sessions).filter
      (fun s => s.devSid == some sid) = [s₀] := by
    apply filter_eq_singleton _ _ _
      (hnd.sublist (List.filter_sublist sessions))
      (List.mem_filter.mpr ⟨hs₀, by simp [hs₀u, hs₀a]⟩)
      (by simp [hs₀d])
    intro b hb hpb
    have hbm := List.mem_filter.mp hb
    have hbp := hbm.2
    simp only [Bool.and_eq_true, beq_iff_eq] at hbp
    exact huniq b hbm.1 hbp.1 (by simpa using hpb) hbp.2
  have hfltB : sessions.filter (fun s =>
      s.user_id == uid && s.devSid == some sid && s.isActive now) = [s₀] := by
    apply filter_eq_singleton _ _ _ hnd hs₀ (by simp [hs₀u, hs₀d, hs₀a])
    intro b hb hpb
    simp only [Bool.and_eq_true, beq_iff_eq] at hpb
    exact huniq b hb hpb.1.1 hpb.1.2 hpb.2
  have e₁ := createOrUpdateSession_deviceHit now fid uid th₁ d sid ip
    sessions s₀ hfind hdsid hfltA
  have e₂ := updateSessionToken_deviceHit now uid th₂ sid sessions s₀ hfltB
  have hthirty : (0 : Int) < thirtyDays := by simp [thirtyDays]
  have hcong₁ : ∀ t ∈ sessions,
      ((fun s => s.user_id == uid && Session.isActive now s) ∘ (fun t =>
        if t.id == s₀.id then
          { t with session_token_hash := th₁, last_seen_at := now,
                   expires_at := now + thirtyDays, device_info := some d }
        else t)) t =
      (fun s => s.user_id == uid && Session.isActive now s) t := by
    intro t ht
    by_cases hbeq : (t.id == s₀.id) = true
    · have hts : t = s₀ :=
        List.inj_on_of_nodup_map hids ht hs₀ (by simpa using hbeq)
      subst hts
      obtain ⟨hrev, hexp⟩ : t.revoked = false ∧ now < t.expires_at := by
        have hact := hs₀a
        unfold Session.isActive at hact
        simpa using hact
      simp [Function.comp, hbeq, Session.isActive, hrev, hexp, thirtyDays]
    · simp only [Bool.not_eq_true] at hbeq
      simp [Function.comp, hbeq]
  have hcong₂ : ∀ t ∈ sessions,
      ((fun s => s.user_id == uid && Session.isActive now s) ∘ (fun t =>
        if t.user_id == uid && t.devSid == some sid && t.isActive now then
          { t with session_token_hash := th₂, last_seen_at := now,
                   expires_at := now + thirtyDays }
        else t)) t =
      (fun s => s.user_id == uid && Session.isActive now s) t := by
    intro t ht
    by_cases hq : (t.user_id == uid && t.devSid == some sid &&
        t.isActive now) = true
    · have hqp := hq
      simp only [Bool.and_eq_true, beq_iff_eq] at hqp
      have hts : t = s₀ := huniq t ht hqp.1.1 hqp.1.2 hqp.2
      subst hts
      obtain ⟨hrev, hexp⟩ : t.revoked = false ∧ now < t.expires_at := by
        have hact := hs₀a
        unfold Session.isActive at hact
        simpa using hact
      simp [Function.comp, hq, Session.isActive, hrev, hexp, thirtyDays,
        hs₀u, hs₀d]
    · simp only [Bool.not_eq_true] at hq
      simp [Function.comp, hq]
  refine ⟨by rw [e₁], by rw [e₂], by rw [e₁]; simp,
    by rw [e₂]; simp, ?_, ?_, ?_, ?_⟩
  · rw [e₁]
    unfold activeSessionsOf
    rw [List.filter_map, List.length_map, List.filter_congr hcong₁]
  · rw [e₂]
    unfold activeSessionsOf
    rw [List.filter_map, List.length_map, List.filter_congr hcong₂]
  · rw [e₁]
    simp only
    rw [List.forall₂_map_right_iff, List.forall₂_same]
    intro t ht
    by_cases hbeq : (t.id == s₀.id) = true
    · have hts : t = s₀ :=
        List.inj_on_of_nodup_map hids ht hs₀ (by simpa using hbeq)
      subst hts
      rw [if_pos hbeq]
      exact ⟨fun _ => ⟨rfl, rfl, rfl, rfl, rfl⟩, fun hne => absurd rfl hne⟩
    · rw [if_neg hbeq]
      refine ⟨fun hts => ?_, fun _ => rfl⟩
      subst hts
      exact absurd (by simp) hbeq
  · rw [e₂]
    simp only
    rw [List.forall₂_map_right_iff, List.forall₂_same]
    intro t ht
    by_cases hq : (t.user_id == uid && t.devSid == some sid &&
        t.isActive now) = true
    · have hqp := hq
      simp only [Bool.and_eq_true, beq_iff_eq] at hqp
      have hts : t = s₀ := huniq t ht hqp.1.1 hqp.1.2 hqp.2
      subst hts
      rw [if_pos hq]
      exact ⟨fun _ => ⟨rfl, rfl, rfl, rfl, rfl⟩, fun hne => absurd rfl hne⟩
    · rw [if_neg hq]
      refine ⟨fun hts => ?_, fun _ => rfl⟩
      subst hts
      exact absurd (by simp [hs₀u, hs₀d, hs₀a]) hq

/-- The device metadata used by the continuity witness. -/
def wDev : DeviceInfo :=
  { session_id := some "dev", name := none, os := none, browser := none,
    app_version := none }

/-- An active session of account 1 storing device identifier `dev`. -/
def wSession : Session :=
  { id := 1, user_id := 1, session_token_hash := "old",
    device_info := some wDev, ip_address := none, created_at := -10,
    last_seen_at := -10, expires_at := 100, revoked := false }

/-- C8, witness: refreshing the token of the single active session of account
1 returns the same session id from both entry points. -/
theorem token_refresh_continuity_spec_witness :
    (createOrUpdateSession 0 99 1 "new1" (some wDev) none [wSession]).2 =
      wSession.id ∧
    (updateSessionToken 0 1 "new2" (some "dev") [wSession]).2 =
      some wSession.id := by
  have h := token_refresh_continuity_spec 0 99 1 "new1" "new2" wDev "dev"
    none [wSession] wSession
    (by simp)
    (by intro s hs; simp only [List.mem_singleton] at hs; subst hs; decide)
    rfl
    (by simp)
    rfl rfl (by decide)
    (by intro t ht _ _ _; simpa using ht)
  exact ⟨h.1, h.2.1⟩

/-! ### C10 — revocation permanence -/

/-- A row-wise table update that preserves ids and never clears the revoked
flag preserves revocation per id and deletes nothing. -/
theorem map_op_facts (pre : List Session) (f : Session → Session)
    (hid : ∀ t, (f t).id = t.id)
    (hrev : ∀ t, t.revoked = true → (f t).revoked = true)
    (hids : (pre.map Session.id).Nodup) :
    (∀ s ∈ pre, s.revoked = true →
      ∀ s' ∈ pre.map f, s'.id = s.id → s'.revoked = true) ∧
    (∀ s ∈ pre, ∃ s' ∈ pre.map f, s'.id = s.id) := by
  constructor
  · intro s hs hsrev s' hs' hsid
    obtain ⟨t, ht, rfl⟩ := List.mem_map.mp hs'
    have htid : t.id = s.id := (hid t).symm.trans hsid
    have hts : t = s := List.inj_on_of_nodup_map hids ht hs htid
    subst hts
    exact hrev t hsrev
  · intro s hs
    exact ⟨f s, List.mem_map.mpr ⟨s, hs, rfl⟩, hid s⟩

/-- Every branch of `create_or_update_session` is either an id-preserving,
revocation-preserving row update of the whole table, or (the genuinely-new
branch) such an update of the table purged of the user's stale rows followed
by the insertion of the fresh unrevoked row. -/
theorem createOrUpdateSession_cases (now : Int) (fid uid : Nat) (th : String)
    (dev : Option DeviceInfo) (ip : Option String) (sessions : List Session) :
    (∃ f : Session → Session, (∀ t, (f t).id = t.id) ∧
      (∀ t, t.revoked = true → (f t).revoked = true) ∧
      (createOrUpdateSession now fid uid th dev ip sessions).1 =
        sessions.map f) ∨
    (∃ g : Session → Session, (∀ t, (g t).id = t.id) ∧
      (∀ t, t.revoked = true → (g t).revoked = true) ∧
      (createOrUpdateSession now fid uid th dev ip sessions).1 =
        (cleanupUserSessions now uid sessions).map g ++
          [{ id := fid, user_id := uid, session_token_hash := th,
             device_info := dev, ip_address := ip, created_at := now,
             last_seen_at := now, expires_at := now + thirtyDays,
             revoked := false }]) := by
  unfold createOrUpdateSession
  cases hf : sessions.find? (fun s => s.session_token_hash == th) with
  | some s1 =>
    refine Or.inl ⟨fun t => if t.id == s1.id then
      { t with last_seen_at := now, device_info := dev,
               ip_address := ip } else t, ?_, ?_, rfl⟩
    · intro t
      by_cases h : (t.id == s1.id) = true <;> simp [h]
    · intro t htr
      by_cases h : (t.id == s1.id) = true <;> simp [h, htr]
  | none =>
    dsimp only
    cases hdb : dev.bind (fun d => d.session_id) with
    | some sid =>
      dsimp only
      cases hagm : List.argmax (fun s : Session => s.last_seen_at)
          ((activeSessionsOf now uid sessions).filter
            (fun s => s.devSid == some sid)) with
      | some s2 =>
        refine Or.inl ⟨fun t => if t.id == s2.id then
          { t with session_token_hash := th, last_seen_at := now,
                   expires_at := now + thirtyDays,
                   device_info := dev } else t, ?_, ?_, rfl⟩
        · intro t
          by_cases h : (t.id == s2.id) = true <;> simp [h]
        · intro t htr
          by_cases h : (t.id == s2.id) = true <;> simp [h, htr]
      | none =>
        refine Or.inr ?_
        dsimp only
        by_cases hcap : 5 ≤ (activeSessionsOf now uid
            (cleanupUserSessions now uid sessions)).length
        · rw [if_pos hcap]
          cases hmin : List.argmin (fun s : Session => s.last_seen_at)
              (activeSessionsOf now uid
                (cleanupUserSessions now uid sessions)) with
          | some oldest =>
            refine ⟨fun t => if t.id == oldest.id then
              { t with revoked := true } else t, ?_, ?_, rfl⟩
            · intro t
              by_cases h : (t.id == oldest.id) = true <;> simp [h]
            · intro t htr
              by_cases h : (t.id == oldest.id) = true <;> simp [h, htr]
          | none =>
            refine ⟨id, fun _ => rfl, fun _ h => h, ?_⟩
            rw [List.map_id]
        · rw [if_neg hcap]
          refine ⟨id, fun _ => rfl, fun _ h => h, ?_⟩
          rw [List.map_id]
    | none =>
      refine Or.inr ?_
      dsimp only
      by_cases hcap : 5 ≤ (activeSessionsOf now uid
          (cleanupUserSessions now uid sessions)).length
      · rw [if_pos hcap]
        cases hmin : List.argmin (fun s : Session => s.last_seen_at)
            (activeSessionsOf now uid
              (cleanupUserSessions now uid sessions)) with
        | some oldest =>
          refine ⟨fun t => if t.id == oldest.id then
            { t with revoked := true } else t, ?_, ?_, rfl⟩
          · intro t
            by_cases h : (t.id == oldest.id) = true <;> simp [h]
          · intro t htr
            by_cases h : (t.id == oldest.id) = true <;> simp [h, htr]
        | none =>
          refine ⟨id, fun _ => rfl, fun _ h => h, ?_⟩
          rw [List.map_id]
      · rw [if_neg hcap]
        refine ⟨id, fun _ => rfl, fun _ h => h, ?_⟩
        rw [List.map_id]

/-- `update_session_token` is always an id-preserving, revocation-preserving
row update of the table. -/
theorem updateSessionToken_cases (now : Int) (uid : Nat) (th : String)
    (devSid : Option String) (sessions : List Session) :
    ∃ f : Session → Session, (∀ t, (f t).id = t.id) ∧
      (∀ t, t.revoked = true → (f t).revoked = true) ∧
      (updateSessionToken now uid th devSid sessions).1 = sessions.map f := by
  unfold updateSessionToken
  have fallback : ∃ f : Session → Session, (∀ t, (f t).id = t.id) ∧
      (∀ t, t.revoked = true → (f t).revoked = true) ∧
      (match List.argmax (fun s : Session => s.last_seen_at)
          (activeSessionsOf now uid sessions) with
        | some m =>
          (sessions.map (fun t : Session =>
              if t.id == m.id then
                { t with session_token_hash := th, last_seen_at := now,
                         expires_at := now + thirtyDays }
              else t),
           some m.id)
        | none => (sessions, none)).1 = sessions.map f := by
    cases hagm : List.argmax (fun s : Session => s.last_seen_at)
        (activeSessionsOf now uid sessions) with
    | some m =>
      refine ⟨fun t => if t.id == m.id then
        { t with session_token_hash := th, last_seen_at := now,
                 expires_at := now + thirtyDays } else t, ?_, ?_, rfl⟩
      · intro t
        by_cases h : (t.id == m.id) = true <;> simp [h]
      · intro t htr
        by_cases h : (t.id == m.id) = true <;> simp [h, htr]
    | none =>
      refine ⟨id, fun _ => rfl, fun _ h => h, ?_⟩
      rw [List.map_id]
  cases devSid with
  | none => exact fallback
  | some sid =>
    dsimp only
    cases hfl : sessions.filter (fun s =>
        s.user_id == uid && s.devSid == some sid && s.isActive now) with
    | nil => exact fallback
    | cons s0 rest =>
      refine ⟨fun t : Session => if t.user_id == uid && t.devSid == some sid &&
          t.isActive now then
        { t with session_token_hash := th, last_seen_at := now,
                 expires_at := now + thirtyDays } else t, ?_, ?_, rfl⟩
      · intro t
        by_cases h : (t.user_id == uid && t.devSid == some sid &&
            t.isActive now) = true <;> simp [h]
      · intro t htr
        by_cases h : (t.user_id == uid && t.devSid == some sid &&
            t.isActive now) = true <;> simp [h, htr]

/-- C10: across every session-registry operation, a revoked row never has its
flag cleared — any surviving row with a revoked row's id is still revoked —
and a row can disappear from the table only through an operation that runs a
cleanup routine, and only when it matches the staleness predicate at that
operation's time. -/
theorem revocation_permanent_spec (op : RegistryOp) (pre : List Session)
    (hids : (pre.map Session.id).Nodup)
    (hfresh : ∀ now fid uid th dev ip,
      op = RegistryOp.create now fid uid th dev ip →
        fid ∉ pre.map Session.id) :
    (∀ s ∈ pre, s.revoked = true →
      ∀ s' ∈ RegistryOp.apply pre op, s'.id = s.id → s'.revoked = true) ∧
    (∀ s ∈ pre, (¬∃ s' ∈ RegistryOp.apply pre op, s'.id = s.id) →
      ∃ now, op.cleanupTime = some now ∧ s.isStale now = true) := by
  cases op with
  | create now fid uid th dev ip =>
    have hfr : fid ∉ pre.map Session.id := hfresh now fid uid th dev ip rfl
    rcases createOrUpdateSession_cases now fid uid th dev ip pre with
      ⟨f, hfid, hfrev, heq⟩ | ⟨g, hgid, hgrev, heq⟩
    · have hm := map_op_facts pre f hfid hfrev hids
      constructor
      · intro s hs hsrev s' hs' hsid
        simp only [RegistryOp.apply] at hs'
        rw [heq] at hs'
        exact hm.1 s hs hsrev s' hs' hsid
      · intro s hs hnone
        exfalso
        apply hnone
        obtain ⟨s', hs', hid⟩ := hm.2 s hs
        refine ⟨s', ?_, hid⟩
        simp only [RegistryOp.apply]
        rw [heq]
        exact hs'
    · constructor
      · intro s hs hsrev s' hs' hsid
        simp only [RegistryOp.apply] at hs'
        rw [heq] at hs'
        rcases List.mem_append.mp hs' with hmap | hnew
        · obtain ⟨t, ht, rfl⟩ := List.mem_map.mp hmap
          have htpre : t ∈ pre := (List.mem_filter.mp ht).1
          have htid : t.id = s.id := (hgid t).symm.trans hsid
          have hts : t = s := List.inj_on_of_nodup_map hids htpre hs htid
          subst hts
          exact hgrev t hsrev
        · exfalso
          simp only [List.mem_singleton] at hnew
          subst hnew
          apply hfr
          rw [show fid = s.id from hsid]
          exact List.mem_map.mpr ⟨s, hs, rfl⟩
      · intro s hs hnone
        by_cases hcl : s ∈ cleanupUserSessions now uid pre
        · exfalso
          apply hnone
          refine ⟨g s, ?_, hgid s⟩
          simp only [RegistryOp.apply]
          rw [heq]
          exact List.mem_append.mpr (Or.inl (List.mem_map.mpr ⟨s, hcl, rfl⟩))
        · refine ⟨now, rfl, ?_⟩
          unfold cleanupUserSessions at hcl
          cases hx : (s.user_id == uid && s.isStale now) with
          | true => exact ((Bool.and_eq_true _ _).mp hx).2
          | false => exact absurd (List.mem_filter.mpr ⟨hs, by simp [hx]⟩) hcl
  | validate now th =>
    have hm := map_op_facts pre
      (fun s => if s.session_token_hash == th && !s.revoked &&
          decide (now < s.expires_at) then
        { s with last_seen_at := now } else s)
      (by intro t
          by_cases h : (t.session_token_hash == th && !t.revoked &&
            decide (now < t.expires_at)) = true <;> simp [h])
      (by intro t htr
          by_cases h : (t.session_token_hash == th && !t.revoked &&
            decide (now < t.expires_at)) = true <;> simp [h, htr])
      hids
    refine ⟨fun s hs hsrev s' hs' hsid => hm.1 s hs hsrev s' hs' hsid,
      fun s hs hnone => absurd (hm.2 s hs) hnone⟩
  | updateToken now uid th devSid =>
    obtain ⟨f, hfid, hfrev, heq⟩ := updateSessionToken_cases now uid th
      devSid pre
    have hm := map_op_facts pre f hfid hfrev hids
    constructor
    · intro s hs hsrev s' hs' hsid
      simp only [RegistryOp.apply] at hs'
      rw [heq] at hs'
      exact hm.1 s hs hsrev s' hs' hsid
    · intro s hs hnone
      exfalso
      apply hnone
      obtain ⟨s', hs', hid⟩ := hm.2 s hs
      refine ⟨s', ?_, hid⟩
      simp only [RegistryOp.apply]
      rw [heq]
      exact hs'
  | revoke sid uid =>
    have hm := map_op_facts pre
      (fun s => if s.id == sid && s.user_id == uid then
        { s with revoked := true } else s)
      (by intro t
          by_cases h : (t.id == sid && t.user_id == uid) = true <;> simp [h])
      (by intro t htr
          by_cases h : (t.id == sid && t.user_id == uid) = true <;>
            simp [h, htr])
      hids
    refine ⟨fun s hs hsrev s' hs' hsid => hm.1 s hs hsrev s' hs' hsid,
      fun s hs hnone => absurd (hm.2 s hs) hnone⟩
  | revokeAll uid exceptTh =>
    cases exceptTh with
    | none =>
      have hm := map_op_facts pre
        (fun s => if s.user_id == uid && true then
          { s with revoked := true } else s)
        (by intro t
            by_cases h : (t.user_id == uid && true) = true <;> simp [h])
        (by intro t htr
            by_cases h : (t.user_id == uid && true) = true <;> simp [h, htr])
        hids
      refine ⟨fun s hs hsrev s' hs' hsid => hm.1 s hs hsrev s' hs' hsid,
        fun s hs hnone => absurd (hm.2 s hs) hnone⟩
    | some ex =>
      have hm := map_op_facts pre
        (fun s => if s.user_id == uid && !(s.session_token_hash == ex) then
          { s with revoked := true } else s)
        (by intro t
            by_cases h : (t.user_id == uid &&
              !(t.session_token_hash == ex)) = true <;> simp [h])
        (by intro t htr
            by_cases h : (t.user_id == uid &&
              !(t.session_token_hash == ex)) = true <;> simp [h, htr])
        hids
      refine ⟨fun s hs hsrev s' hs' hsid => hm.1 s hs hsrev s' hs' hsid,
        fun s hs hnone => absurd (hm.2 s hs) hnone⟩
  | cleanupUser now uid =>
    constructor
    · intro s hs hsrev s' hs' hsid
      have hspre : s' ∈ pre := (List.mem_filter.mp hs').1
      have hss : s' = s := List.inj_on_of_nodup_map hids hspre hs hsid
      subst hss
      exact hsrev
    · intro s hs hnone
      by_cases hcl : s ∈ cleanupUserSessions now uid pre
      · exact absurd ⟨s, hcl, rfl⟩ hnone
      · refine ⟨now, rfl, ?_⟩
        unfold cleanupUserSessions at hcl
        cases hx : (s.user_id == uid && s.isStale now) with
        | true => exact ((Bool.and_eq_true _ _).mp hx).2
        | false => exact absurd (List.mem_filter.mpr ⟨hs, by simp [hx]⟩) hcl
  | cleanupAll now =>
    constructor
    · intro s hs hsrev s' hs' hsid
      have hspre : s' ∈ pre := (List.mem_filter.mp hs').1
      have hss : s' = s := List.inj_on_of_nodup_map hids hspre hs hsid
      subst hss
      exact hsrev
    · intro s hs hnone
      by_cases hcl : s ∈ cleanupSessions now pre
      · exact absurd ⟨s, hcl, rfl⟩ hnone
      · refine ⟨now, rfl, ?_⟩
        unfold cleanupSessions at hcl
        cases hx : s.isStale now with
        | true => rfl
        | false => exact absurd (List.mem_filter.mpr ⟨hs, by simp [hx]⟩) hcl

/-- C10, witness: revoking a session of account 1 keeps the already-revoked
row revoked (the permanence theorem instantiated on a one-row table whose
session is revoked, with `revoke_session` as the operation, at that row as
the surviving row). -/
theorem revocation_permanent_spec_witness :
    ({ wSession with revoked := true } : Session).revoked = true :=
  (revocation_permanent_spec (RegistryOp.revoke 1 1)
      [{ wSession with revoked := true }]
      (by simp)
      (by intro now fid uid th dev ip hop; cases hop)).1
    { wSession with revoked := true } (by simp) rfl
    { wSession with revoked := true } (by decide) rfl

/-! ### C3 — session cap -/

/-- `create_or_update_session` branch 3, unfolded: when the token hash is new
and no active session of the account matches the device identifier, the
user's stale rows are purged, the oldest active row is revoked when the cap
is reached, and the fresh row is appended. -/
theorem createOrUpdateSession_new (now : Int) (fid uid : Nat) (th : String)
    (dev : Option DeviceInfo) (ip : Option String) (sessions : List Session)
    (hfind : sessions.find? (fun s => s.session_token_hash == th) = none)
    (hdev : ∀ sid, dev.bind (fun d => d.session_id) = some sid →
      (activeSessionsOf now uid sessions).filter
        (fun s => s.devSid == some sid) = []) :
    createOrUpdateSession now fid uid th dev ip sessions =
      ((if 5 ≤ (activeSessionsOf now uid
            (cleanupUserSessions now uid sessions)).length then
          match List.argmin (fun s : Session => s.last_seen_at)
              (activeSessionsOf now uid
                (cleanupUserSessions now uid sessions)) with
          | some oldest =>
            (cleanupUserSessions now uid sessions).map (fun t =>
              if t.id == oldest.id then { t with revoked := true } else t)
          | none => cleanupUserSessions now uid sessions
        else cleanupUserSessions now uid sessions) ++
        [{ id := fid, user_id := uid, session_token_hash := th,
           device_info := dev, ip_address := ip, created_at := now,
           last_seen_at := now, expires_at := now + thirtyDays,
           revoked := false }],
       fid) := by
  unfold createOrUpdateSession
  rw [hfind]
  dsimp only
  cases hdb : dev.bind (fun d => d.session_id) with
  | none => rfl
  | some sid =>
    dsimp only
    rw [hdev sid hdb]
    rfl

/-- Appending a row that is active for the account extends the account's
active-session list by that row. -/
theorem activeSessionsOf_append_new (now : Int) (uid : Nat)
    (l : List Session) (n : Session)
    (hp : (n.user_id == uid && n.isActive now) = true) :
    activeSessionsOf now uid (l ++ [n]) = activeSessionsOf now uid l ++ [n] := by
  unfold activeSessionsOf
  rw [List.filter_append]
  simp [hp]

/-- C3: a call that inserts a genuinely new session (fresh token hash and no
matching stored device identifier) returns the fresh id and leaves the
account with at most 5 non-revoked, non-expired sessions, provided the table
satisfied the invariants: at most 5 active sessions, no active session more
than 90 days idle, and duplicate-free ids. When the account already had
exactly 5 active sessions, a least-recently-seen one is revoked — every row
carrying its id is revoked afterwards, every other active session stays
active — and exactly 5 active sessions remain. -/
theorem session_cap_spec (now : Int) (fid uid : Nat) (th : String)
    (dev : Option DeviceInfo) (ip : Option String) (sessions : List Session)
    (hids : (sessions.map Session.id).Nodup)
    (hfresh : fid ∉ sessions.map Session.id)
    (htok : ∀ s ∈ sessions, ¬s.session_token_hash = th)
    (hdev : ∀ sid, dev.bind (fun d => d.session_id) = some sid →
      ∀ s ∈ sessions, ¬(s.user_id = uid ∧ s.devSid = some sid ∧
        s.isActive now = true))
    (hstale : ∀ s ∈ sessions, s.user_id = uid → s.isActive now = true →
      now - ninetyDays ≤ s.last_seen_at)
    (hcap : (activeSessionsOf now uid sessions).length ≤ 5) :
    (createOrUpdateSession now fid uid th dev ip sessions).2 = fid ∧
    (activeSessionsOf now uid
      (createOrUpdateSession now fid uid th dev ip sessions).1).length ≤ 5 ∧
    ((activeSessionsOf now uid sessions).length = 5 →
      (activeSessionsOf now uid
        (createOrUpdateSession now fid uid th dev ip sessions).1).length = 5 ∧
      ∃ m ∈ activeSessionsOf now uid sessions,
        (∀ t ∈ activeSessionsOf now uid sessions,
          m.last_seen_at ≤ t.last_seen_at) ∧
        (∀ s' ∈ (createOrUpdateSession now fid uid th dev ip sessions).1,
          s'.id = m.id → s'.revoked = true) ∧
        (∀ t ∈ activeSessionsOf now uid sessions, t ≠ m →
          t ∈ activeSessionsOf now uid
            (createOrUpdateSession now fid uid th dev ip sessions).1)) := by
  have hfind : sessions.find? (fun s => s.session_token_hash == th) = none := by
    rw [List.find?_eq_none]
    intro s hs
    simpa using htok s hs
  have hdev' : ∀ sid, dev.bind (fun d => d.session_id) = some sid →
      (activeSessionsOf now uid sessions).filter
        (fun s => s.devSid == some sid) = [] := by
    intro sid hdb
    rw [List.filter_eq_nil_iff]
    intro s hsa
    have hsm := List.mem_filter.mp hsa
    have hsp := hsm.2
    simp only [Bool.and_eq_true, beq_iff_eq] at hsp
    have := hdev sid hdb s hsm.1
    intro hbeq
    exact this ⟨hsp.1, by simpa using hbeq, hsp.2⟩
  have e := createOrUpdateSession_new now fid uid th dev ip sessions
    hfind hdev'
  have hactcl : activeSessionsOf now uid (cleanupUserSessions now uid sessions)
      = activeSessionsOf now uid sessions :=
    activeSessionsOf_cleanup now uid sessions hstale
  rw [hactcl] at e
  have hnewp : (({ id := fid, user_id := uid, session_token_hash := th,
                   device_info := dev, ip_address := ip, created_at := now,
                   last_seen_at := now, expires_at := now + thirtyDays,
                   revoked := false } : Session).user_id == uid &&
        Session.isActive now
          { id := fid, user_id := uid, session_token_hash := th,
            device_info := dev, ip_address := ip, created_at := now,
            last_seen_at := now, expires_at := now + thirtyDays,
            revoked := false }) = true := by
    rw [isActive_new]
    simp
  by_cases h5 : (activeSessionsOf now uid sessions).length = 5
  · have hcond : 5 ≤ (activeSessionsOf now uid sessions).length := by omega
    rw [if_pos hcond] at e
    have hne : activeSessionsOf now uid sessions ≠ [] := by
      intro h0
      rw [h0] at h5
      simp at h5
    obtain ⟨m, hm⟩ : ∃ m, List.argmin (fun s : Session => s.last_seen_at)
        (activeSessionsOf now uid sessions) = some m := by
      cases hq : List.argmin (fun s : Session => s.last_seen_at)
          (activeSessionsOf now uid sessions) with
      | none => exact absurd (List.argmin_eq_none.mp hq) hne
      | some m => exact ⟨m, rfl⟩
    rw [hm] at e
    have hmact : m ∈ activeSessionsOf now uid sessions :=
      List.argmin_mem (show m ∈ _ by rw [hm]; rfl)
    have hmmin : ∀ t ∈ activeSessionsOf now uid sessions,
        m.last_seen_at ≤ t.last_seen_at :=
      fun t ht => List.le_of_mem_argmin ht (show m ∈ _ by rw [hm]; rfl)
    have hmses : m ∈ sessions := (List.mem_filter.mp hmact).1
    have hmcl : m ∈ cleanupUserSessions now uid sessions := by
      have : m ∈ activeSessionsOf now uid
          (cleanupUserSessions now uid sessions) := by rw [hactcl]; exact hmact
      exact (List.mem_filter.mp this).1
    have hclids : ((cleanupUserSessions now uid sessions).map Session.id).Nodup :=
      hids.sublist ((List.filter_sublist sessions).map Session.id)
    have hactids : ((activeSessionsOf now uid sessions).map Session.id).Nodup :=
      hids.sublist ((List.filter_sublist sessions).map Session.id)
    have hrevoked : activeSessionsOf now uid
        ((cleanupUserSessions now uid sessions).map (fun t =>
          if t.id == m.id then { t with revoked := true } else t)) =
        (cleanupUserSessions now uid sessions).filter (fun t =>
          (t.user_id == uid && t.isActive now) && !(t.id == m.id)) :=
      activeSessionsOf_revoke now uid _ m
    have hsplit : (cleanupUserSessions now uid sessions).filter (fun t =>
        (t.user_id == uid && t.isActive now) && !(t.id == m.id)) =
        (activeSessionsOf now uid sessions).filter
          (fun t => !(t.id == m.id)) := by
      have hcomm : (cleanupUserSessions now uid sessions).filter (fun t =>
          (t.user_id == uid && t.isActive now) && !(t.id == m.id)) =
          (cleanupUserSessions now uid sessions).filter (fun t =>
            !(t.id == m.id) && (t.user_id == uid && t.isActive now)) :=
        List.filter_congr (fun t _ => by rw [Bool.and_comm])
      rw [hcomm, ← List.filter_filter]
      rw [show List.filter (fun s => s.user_id == uid && s.isActive now)
          (cleanupUserSessions now uid sessions) =
          activeSessionsOf now uid sessions from hactcl]
    have hlen4 : ((activeSessionsOf now uid sessions).filter
        (fun t => !(t.id == m.id))).length + 1 =
        (activeSessionsOf now uid sessions).length :=
      length_filter_ne_id _ m hactids hmact
    have hpostact : activeSessionsOf now uid
        (createOrUpdateSession now fid uid th dev ip sessions).1 =
        (activeSessionsOf now uid sessions).filter
          (fun t => !(t.id == m.id)) ++
        [{ id := fid, user_id := uid, session_token_hash := th,
           device_info := dev, ip_address := ip, created_at := now,
           last_seen_at := now, expires_at := now + thirtyDays,
           revoked := false }] := by
      rw [show (createOrUpdateSession now fid uid th dev ip sessions).1 =
        ((cleanupUserSessions now uid sessions).map (fun t =>
          if t.id == m.id then { t with revoked := true } else t)) ++
        [{ id := fid, user_id := uid, session_token_hash := th,
           device_info := dev, ip_address := ip, created_at := now,
           last_seen_at := now, expires_at := now + thirtyDays,
           revoked := false }] from by rw [e]]
      rw [activeSessionsOf_append_new now uid _ _ hnewp, hrevoked, hsplit]
    have hlenpost : (activeSessionsOf now uid
        (createOrUpdateSession now fid uid th dev ip sessions).1).length = 5 := by
      rw [hpostact]
      rw [List.length_append]
      simp only [List.length_singleton]
      omega
    refine ⟨by rw [e], by omega, fun _ => ⟨hlenpost, m, hmact, hmmin, ?_, ?_⟩⟩
    · intro s' hs' hsid
      rw [show (createOrUpdateSession now fid uid th dev ip sessions).1 =
        ((cleanupUserSessions now uid sessions).map (fun t =>
          if t.id == m.id then { t with revoked := true } else t)) ++
        [{ id := fid, user_id := uid, session_token_hash := th,
           device_info := dev, ip_address := ip, created_at := now,
           last_seen_at := now, expires_at := now + thirtyDays,
           revoked := false }] from by rw [e]] at hs'
      rcases List.mem_append.mp hs' with hmap | hnew
      · obtain ⟨t, ht, rfl⟩ := List.mem_map.mp hmap
        by_cases hbeq : (t.id == m.id) = true
        · rw [if_pos hbeq]
        · rw [if_neg hbeq] at hsid ⊢
          exact absurd (by simp [hsid]) hbeq
      · exfalso
        simp only [List.mem_singleton] at hnew
        subst hnew
        apply hfresh
        rw [show fid = m.id from hsid]
        exact List.mem_map.mpr ⟨m, hmses, rfl⟩
    · intro t ht htm
      rw [hpostact]
      refine List.mem_append.mpr (Or.inl ?_)
      refine List.mem_filter.mpr ⟨ht, ?_⟩
      cases hbeq : (t.id == m.id) with
      | false => rfl
      | true =>
        exfalso
        apply htm
        exact List.inj_on_of_nodup_map hactids ht hmact (by simpa using hbeq)
  · have hle4 : (activeSessionsOf now uid sessions).length ≤ 4 := by omega
    have hcond : ¬5 ≤ (activeSessionsOf now uid sessions).length := by omega
    rw [if_neg hcond] at e
    have hpostact : activeSessionsOf now uid
        (createOrUpdateSession now fid uid th dev ip sessions).1 =
        activeSessionsOf now uid sessions ++
        [{ id := fid, user_id := uid, session_token_hash := th,
           device_info := dev, ip_address := ip, created_at := now,
           last_seen_at := now, expires_at := now + thirtyDays,
           revoked := false }] := by
      rw [show (createOrUpdateSession now fid uid th dev ip sessions).1 =
        cleanupUserSessions now uid sessions ++
        [{ id := fid, user_id := uid, session_token_hash := th,
           device_info := dev, ip_address := ip, created_at := now,
           last_seen_at := now, expires_at := now + thirtyDays,
           revoked := false }] from by rw [e]]
      rw [activeSessionsOf_append_new now uid _ _ hnewp, hactcl]
    refine ⟨by rw [e], ?_, fun habs => absurd habs h5⟩
    rw [hpostact, List.length_append]
    simp only [List.length_singleton]
    omega

/-- Five distinct active sessions of account 1, with pairwise distinct
last-seen times, used to instantiate the cap theorem. -/
def wCapSessions : List Session :=
  [{ id := 1, user_id := 1, session_token_hash := "h1", device_info := none,
     ip_address := none, created_at := -100, last_seen_at := -1,
     expires_at := 100, revoked := false },
   { id := 2, user_id := 1, session_token_hash := "h2", device_info := none,
     ip_address := none, created_at := -100, last_seen_at := -2,
     expires_at := 100, revoked := false },
   { id := 3, user_id := 1, session_token_hash := "h3", device_info := none,
     ip_address := none, created_at := -100, last_seen_at := -3,
     expires_at := 100, revoked := false },
   { id := 4, user_id := 1, session_token_hash := "h4", device_info := none,
     ip_address := none, created_at := -100, last_seen_at := -4,
     expires_at := 100, revoked := false },
   { id := 5, user_id := 1, session_token_hash := "h5", device_info := none,
     ip_address := none, created_at := -100, last_seen_at := -5,
     expires_at := 100, revoked := false }]

/-- C3, witness: inserting a 6th distinct session for an account holding 5
active sessions returns the fresh id and leaves exactly 5 active sessions. -/
theorem session_cap_spec_witness :
    (createOrUpdateSession 0 99 1 "tnew" none none wCapSessions).2 = 99 ∧
    (activeSessionsOf 0 1
      (createOrUpdateSession 0 99 1 "tnew" none none wCapSessions).1).length = 5 := by
  have h := session_cap_spec 0 99 1 "tnew" none none wCapSessions
    (by decide)
    (by decide)
    (by decide)
    (by intro sid hsid; exact Option.noConfusion hsid)
    (by decide)
    (by decide)
  exact ⟨h.1, (h.2.2 (by decide)).1⟩

end NormaAI
